import Mathlib

/-!
Verification of the ephys-to-NWB writing engine of nwb-conversion-tools
(`src/nwb_conversion_tools/utils/si013nwbephyswriter.py`,
`basenwbephyswriter.py`, `basesinwbephyswriter.py`).

The Python code is shallowly embedded: extractor values become an inductive
value universe, the pynwb container becomes an explicit record of tables and
series, numpy floats are modelled as rationals (with `none` standing for NaN),
and raised exceptions become `Except` errors that carry the state of the
container at raise time (Python mutates the container in place, so mutations
performed before a raise persist).  Emitted diagnostics (`warnings.warn` and
`print`) are modelled structurally as a list of tagged `Diag` values.
-/

set_option autoImplicit false

namespace NwbConv

/--
Value universe for extractor channel/unit properties.  Per the spec (section 3)
property values are heterogeneous: scalar number, string, boolean, 1-D array,
or unsupported nested structure.  Scalars (`int`, `float`, `bool`, numpy
scalars) are all `numbers.Real` instances and are collapsed into `real`;
`none` in the payload models `np.nan`.  `dict` models the unsupported nested
mapping case.
-/
inductive PVal where
  | lst (xs : List (Option Rat))
  | arr (xs : List (Option Rat))
  | str (s : String)
  | real (q : Option Rat)
  | dict
deriving DecidableEq, Repr

/-- The four candidate column types of `channel_property_defaults`
(si013nwbephyswriter.py line 318), in dict insertion order:
`{list: [], np.ndarray: np.array(np.nan), str: "", Real: np.nan}`. -/
inductive PType where
  | tList
  | tArray
  | tStr
  | tReal
deriving DecidableEq, Repr

/-- Python `isinstance(v, t)` for the four candidate types.  The four classes
are disjoint on the modelled universe; `dict` matches none of them. -/
def isinstanceB (v : PVal) (t : PType) : Bool :=
  match v, t with
  | .lst _, .tList => true
  | .arr _, .tArray => true
  | .str _, .tStr => true
  | .real _, .tReal => true
  | _, _ => false

/-- `[proptype for proptype in channel_property_defaults if isinstance(chan_data, proptype)]`
at line 333-335: the first candidate type the value is an instance of. -/
def firstMatching (v : PVal) : Option PType :=
  match v with
  | .lst _ => some .tList
  | .arr _ => some .tArray
  | .str _ => some .tStr
  | .real _ => some .tReal
  | .dict => none

/-- The canonical default of each candidate type (line 318).  `np.array(np.nan)`
is a 0-d nan array, modelled as a singleton nan payload. -/
def channel_property_defaults (t : PType) : PVal :=
  match t with
  | .tList => .lst []
  | .tArray => .arr [none]
  | .tStr => .str ""
  | .tReal => .real none

/-- Modelled from the spec: `ArrayType` is imported from
`utils/common_writer_tools.py`, which is not under src/.  It is only used as
`found_property_types[prop] == ArrayType` to set a column's ragged index flag;
per the spec's property-column model (section 3) this marks array-typed
columns, so it is taken to be the numpy-array variant. -/
def ArrayTypeModel : PType := .tArray

/-- Python `dict.update` over an association list keyed by strings: existing
keys are overwritten in place, new keys are appended in order. -/
def pyUpdate {α : Type} (base upd : List (String × α)) : List (String × α) :=
  (base.map (fun kv => match upd.lookup kv.1 with
    | some v => (kv.1, v)
    | none => kv))
  ++ upd.filter (fun kv => (base.lookup kv.1).isNone)

/-- `np.cumsum` over integers. -/
def cumsum : List Int → List Int
  | [] => []
  | x :: xs => x :: (cumsum xs).map (x + ·)

/-- Lines 342-343 of `add_electrodes`: when the first typed value arrives,
previously appended defaults of the wrong type are replaced by defaults of
the fixed type (`if len(data) > 0 and not isinstance(data[-1], ...)`). -/
def resetWrongDefaults (data : List PVal) (t : PType) : List PVal :=
  if (match data.getLast? with
      | some x => !(isinstanceB x t)
      | none => false) then
    List.replicate data.length (channel_property_defaults t)
  else data

/--
The per-property data-building loop of `SI013NwbEphysWriter.add_electrodes`
(si013nwbephyswriter.py lines 321-349), one property at a time.

State mirrors the Python locals: `cnt` is `prop_chan_count`, `ft` is
`found_property_types[prop]` (initialised to `Real` at line 319), `data` is the
accumulated column data.  The input list is the extractor's channels in id
order; `none` means the channel does not have the property (line 328's
membership test fails), `some v` is `get_channel_property`.

Faithful behaviours to note:
* the candidate type is fixed only when `prop_chan_count == 1` (line 332);
* an unsupported first value sets `prop_skip` and breaks (lines 344-346),
  which makes the whole property return `none` — no diagnostic is emitted;
* values of subsequent channels are appended at line 347 with no type check;
* a channel lacking the property appends the default of the current
  `found_property_types[prop]` (line 349);
* when the first typed value arrives, previously appended defaults of the
  wrong type are replaced by defaults of the fixed type (lines 342-343).
`np.float` casting of a `Real` value (line 340) is the identity on the
modelled payload.
-/
def buildPropColumnAux : Nat → PType → List PVal → List (Option PVal) → Option (PType × List PVal)
  | _, ft, data, [] => some (ft, data)
  | cnt, ft, data, none :: rest =>
      buildPropColumnAux cnt ft (data ++ [channel_property_defaults ft]) rest
  | cnt, ft, data, some v :: rest =>
      if cnt = 0 then
        match firstMatching v with
        | none => none
        | some t => buildPropColumnAux 1 t (resetWrongDefaults data t ++ [v]) rest
      else
        buildPropColumnAux (cnt + 1) ft (data ++ [v]) rest

/-- The full reconciliation of one property across all channels
(lines 321-349 with the initialisation of lines 318-319). -/
def buildPropColumn (vals : List (Option PVal)) : Option (PType × List PVal) :=
  buildPropColumnAux 0 .tReal [] vals

/-- Diagnostics (`warnings.warn` and `print` calls) emitted by the writers,
modelled structurally; constructors carry the property/feature/group name the
message interpolates. -/
inductive Diag where
  | electrodesExist
  | missingGroup (g : String)
  | unsignedOffsets
  | lzfOptsIgnored
  | forcedIterate
  | noDescription (prop : String)
  | unitsExist
  | skipPropertyDict (p : String)
  | skipPropertyVariable (p : String)
  | skipFeatureDict (f : String)
  | skipFeatureNotShared (f : String)
  | skipFeatureVariable (f : String)
  | skipFeatureNotAllSpikes (f : String)
  | featureAlreadyPresent (f : String)
deriving DecidableEq, Repr

/-- Python exceptions raised by the writers.  Constructors are tagged by the
raise site rather than carrying the interpolated message text. -/
inductive Err where
  | notImplementedError
  | typeError
  | attributeError
  | valueErrorNotAProperty (name : String)
  | valueErrorNoSamplingFrequency
  | valueErrorIdNotInTable
  | valueErrorInvalidUnitId
  | valueErrorNoFeature (f : String)
  | keyError (k : String)
  | indexError
  | assertionError (which : String)
  | coercionNotImplemented
deriving DecidableEq, Repr

/-- One column of the pynwb Electrodes DynamicTable: name, description,
per-row data, and the ragged-index flag. -/
structure ECol where
  name : String
  description : String
  data : List PVal
  index : Bool
deriving DecidableEq, Repr

/-- The pynwb Electrodes DynamicTable: row ids plus columns (the `group`
object-reference column is represented through `group_name` only). -/
structure ETable where
  ids : List Int
  cols : List ECol
deriving DecidableEq, Repr

/-- One custom column of the pynwb Units DynamicTable.  `rowIndex` is the
cumulative per-row count index of a ragged (indexed) column; `tableRef` marks
a column linked to the electrodes table (`max_channel` / `max_electrode`). -/
structure UCol where
  name : String
  description : String
  data : List PVal
  rowIndex : Option (List Int)
  tableRef : Bool
deriving DecidableEq, Repr

/-- The pynwb Units DynamicTable: row ids, the built-in ragged `spike_times`
column, and the custom columns. -/
structure UTable where
  ids : List Int
  spike_times : List (List Rat)
  cols : List UCol
deriving DecidableEq, Repr

/-- The data payload handed to H5DataIO for an ElectricalSeries
(lines 640-675): a DataChunkIterator over a memmap with a computed buffer
size, a per-channel generator applying the unsigned coercion, or the full
in-memory array. -/
inductive SeriesData where
  | memmapChunked (buffer_size : Nat)
  | generatorChunked
  | fullArray
deriving DecidableEq, Repr

/-- An emitted pynwb ElectricalSeries (the fields of `eseries_kwargs`). -/
structure ESeries where
  name : String
  description : String
  electrodes_region : List Nat
  conversion : Rat
  channel_conversion : Option (List Rat)
  data : SeriesData
  compression : Option String
  compression_opts : Option Int
  starting_time : Option Rat
  rate : Option Rat
  use_timestamps : Bool
deriving DecidableEq, Repr

/-- The mutable pynwb NWBFile container, restricted to the parts the ephys
writers touch.  `processing_processed` / `processing_lfp` are `some` once the
ecephys processing module holds the FilteredEphys / LFP data interface. -/
structure NwbState where
  devices : List String
  electrode_groups : List String
  electrodes : Option ETable
  units : Option UTable
  acquisition : List ESeries
  processing_processed : Option (List ESeries)
  processing_lfp : Option (List ESeries)
deriving DecidableEq, Repr

/-- The spikeextractors RecordingExtractor capability consumed by the writer
(spec section 6).  `props` holds, per property name, the per-channel optional
values aligned with `channel_ids` (`none` = the channel lacks the property);
`locations` is `none` when the channel location is the nan default;
`time_map` is an affine `frame_to_time` override (`a*f + b`), defaulting to
frame/sampling_frequency. -/
structure Recording where
  channel_ids : List Int
  props : List (String × List (Option PVal))
  groups : List Int
  locations : List (Option (Rat × Rat))
  gains : List Rat
  offsets : List Rat
  sampling_frequency : Rat
  time_map : Option (Rat × Rat)
  num_frames : Nat
  itemsize : Nat
  traces_memmap : Bool
deriving DecidableEq, Repr

/-- The spikeextractors SortingExtractor capability.  `features` holds, per
spike-feature name, the per-unit optional value sequences (aligned 1:1 with
the unit's spike train). -/
structure Sorting where
  unit_ids : List Int
  sampling_frequency : Option Rat
  props : List (String × List (Option PVal))
  spike_trains : List (List Int)
  features : List (String × List (Option (List PVal)))
  time_map : Option (Rat × Rat)
deriving DecidableEq, Repr

/-- User metadata tree, restricted to the keys the embedded methods read:
`Ecephys.Electrodes` entries (already validated to be `{name, description}`
pairs by the modelled type) and `Ecephys.<es_key>` series overrides
(optional name / description).  `has_ecephys` is the `"Ecephys" in
self.metadata` test of line 581. -/
structure Metadata where
  electrodes_meta : List (String × String)
  es_overrides : List (String × (Option String × Option String))
  has_ecephys : Bool
deriving DecidableEq, Repr

/-- An entry of the `elec_columns` defaultdict of `add_electrodes`
(line 308): a plain dict that normally holds `description`, `data` and
`index` keys, but — being created on defaultdict access — may lack `data`
and `index` (the phantom entries produced by line 358). -/
structure ElecColEntry where
  name : String
  description : String
  data : Option (List PVal)
  index : Option Bool
deriving DecidableEq, Repr

/-- The property-reconciliation loop of `add_electrodes` (lines 308-355):
runs `buildPropColumn` for every property name observed on some channel,
skipping `exclude_names`, renaming `brain_area` to `location`, and tracking
`found_property_types` (initialised to `Real` for every property at line 319,
re-keyed to the new name at line 354).  Python iterates the `property_names`
set in unspecified order; properties are processed independently, and the
model fixes the extractor's property order. -/
def buildElecColumns (rec : Recording) (exclude_properties : List String) :
    List ElecColEntry × List (String × PType) :=
  let property_names := (rec.props.filter (fun p => p.2.any Option.isSome)).map Prod.fst
  let exclude_names := ["location", "group"] ++ exclude_properties
  property_names.foldl (fun acc prop =>
    if exclude_names.contains prop then acc
    else
      match buildPropColumn ((rec.props.lookup prop).getD []) with
      | none => acc
      | some tdata =>
          let index := tdata.1 == ArrayTypeModel
          let prop_name_new := if prop = "brain_area" then "location" else prop
          let found1 := acc.2.filter (fun p => p.1 ≠ prop) ++ [(prop_name_new, tdata.1)]
          let cols1 :=
            if acc.1.any (·.name = prop_name_new) then
              acc.1.map (fun c =>
                if c.name = prop_name_new then
                  { c with description := prop_name_new, data := some tdata.2, index := some index }
                else c)
            else
              acc.1 ++ [{ name := prop_name_new, description := prop_name_new,
                          data := some tdata.2, index := some index }]
          (cols1, found1))
    ([], property_names.map (fun p => (p, PType.tReal)))

/-- The user column-description loop of `add_electrodes` (lines 357-360):

    for x in self.metadata["Ecephys"]["Electrodes"]:
        elec_columns[x["name"]]["description"] = x["description"]
        if x["name"] not in list(elec_columns):
            raise ValueError(...)

`elec_columns` is a `defaultdict(dict)`, so the subscript access on line 358
inserts an (empty) entry for the name before the membership test of line 359
runs — the test therefore always passes. -/
def applyUserElectrodeMeta : List ElecColEntry → List (String × String) →
    Except Err (List ElecColEntry)
  | cols, [] => .ok cols
  | cols, (n, d) :: rest =>
      let cols1 :=
        if cols.any (·.name = n) then
          cols.map (fun c => if c.name = n then { c with description := d } else c)
        else cols ++ [{ name := n, description := d, data := none, index := none }]
      if !(cols1.any (·.name = n)) then .error (.valueErrorNotAProperty n)
      else applyUserElectrodeMeta cols1 rest

/-- The `defaults` dict of `add_electrodes` (lines 270-280). -/
def electrode_defaults : List (String × PVal) :=
  [("x", .real none), ("y", .real none), ("z", .real none),
   ("imp", .real (some (-1))), ("location", .str "unknown"),
   ("filtering", .str "none"), ("group_name", .str "0")]

/-- Per-column default sampling for a pre-existing table (lines 365-371):
the first row's value of each column (`IndexError` on an empty column) is
classified to pick a type default; `[...][0]` raises `IndexError` when the
sample matches no candidate type. -/
def sampledDefaults (cols : List ECol) : Except Err (List (String × PVal)) :=
  cols.foldlM (fun acc c =>
    if c.name = "group" then .ok acc
    else match c.data.head? with
      | none => .error Err.indexError
      | some samp =>
          match firstMatching samp with
          | none => .error Err.indexError
          | some t => .ok (pyUpdate acc [(c.name, channel_property_defaults t)]))
    []

/-- `default_updated` (lines 363-372): per-column sampled defaults of a
pre-existing table, then overwritten with the hard defaults. -/
def default_updated_of (electrodes : Option ETable) : Except Err (List (String × PVal)) :=
  match electrodes with
  | none => .ok electrode_defaults
  | some tbl => (sampledDefaults tbl.cols).map (fun s => pyUpdate s electrode_defaults)

/-- The column-add loop of `add_electrodes` (lines 374-390).  For a fresh
file, pynwb's `add_electrode_column` creates the (empty) electrodes table, so
from the second new column on the `else` branch runs and the column is
deferred to `elec_columns_append`.  The phantom entries of
`applyUserElectrodeMeta` have no `index` / no `found_property_types` entry and
raise `KeyError` here.  Errors carry the partially mutated table. -/
def processColumns (found : List (String × PType)) (defaultKeys : List String) :
    Option ETable → List ElecColEntry → List ElecColEntry →
    Except (Err × Option ETable) (Option ETable × List ElecColEntry)
  | et, appendAcc, [] => .ok (et, appendAcc)
  | et, appendAcc, c :: rest =>
      if defaultKeys.contains c.name then processColumns found defaultKeys et appendAcc rest
      else
        match et with
        | none =>
            match c.index with
            | none => .error (.keyError "index", none)
            | some idx =>
                processColumns found defaultKeys
                  (some { ids := [],
                          cols := [{ name := c.name, description := c.description,
                                     data := [], index := idx }] })
                  appendAcc rest
        | some tbl =>
            match found.lookup c.name with
            | none => .error (.keyError c.name, some tbl)
            | some t =>
                match c.data with
                | none => .error (.keyError "data", some tbl)
                | some d =>
                    let combine := List.replicate tbl.ids.length (channel_property_defaults t)
                    processColumns found defaultKeys (some tbl)
                      (appendAcc ++ [{ c with data := some (combine ++ d) }]) rest

/-- Python `str()` of a property value, used for `group_name` resolution
(line 405).  The claims only exercise string-valued group names; numeric
rendering is a deterministic stand-in for CPython's float formatting. -/
def pvalStr (v : PVal) : String :=
  match v with
  | .str s => s
  | .real none => "nan"
  | .real (some q) => toString q
  | .lst _ => "list"
  | .arr _ => "array"
  | .dict => "dict"

/-- pynwb `NWBFile.add_electrode(**kwargs)` on the modelled DynamicTable:
creates the table if absent, creates a column for any kwarg naming no
existing column (backfilled with NaN for pre-existing rows), appends the id,
and appends each column's kwarg value (NaN when absent). -/
def addElectrodeRow (et : Option ETable) (id : Int) (kwargs : List (String × PVal)) : ETable :=
  let t := et.getD { ids := [], cols := [] }
  let t1 := kwargs.foldl (fun acc kv =>
    if acc.cols.any (·.name = kv.1) then acc
    else { acc with cols := acc.cols ++
            [{ name := kv.1, description := "", index := false,
               data := List.replicate acc.ids.length (PVal.real none) }] }) t
  { ids := t1.ids ++ [id],
    cols := t1.cols.map (fun c =>
      match kwargs.lookup c.name with
      | some v => { c with data := c.data ++ [v] }
      | none => { c with data := c.data ++ [PVal.real none] }) }

/--
`BaseNwbEphysWriter.add_electrode_groups` (basenwbephyswriter.py lines
90-91): the method body is `raise NotImplementedError`.
`SI013NwbEphysWriter` (si013nwbephyswriter.py line 43) subclasses
`BaseNwbEphysWriter` directly, so this stub is the method reached by every
`self.add_electrode_groups()` call in `write_recording` (line 138) and
`add_electrodes` (line 262).  (`BaseSINwbEphysWriter.add_electrode_groups`
is not in `SI013NwbEphysWriter`'s MRO, and itself calls
`super(BaseNwbEphysWriter).add_electrode_groups(...)`, which raises
`AttributeError` on the unbound `super` object.)
-/
def add_electrode_groups (st : NwbState) :
    Except (Err × NwbState × List Diag) (NwbState × List Diag) :=
  .error (.notImplementedError, st, [])

/-- The per-column kwargs loop inside the electrode row loop
(lines 403-425).  A `group_name` column entry naming a group absent from the
container warns and then calls
`self.add_electrode_groups(missing_group_metadata=...)` (lines 407-420),
which raises `TypeError`: `BaseNwbEphysWriter.add_electrode_groups` takes no
keyword arguments. -/
def applyColKwargs (egroups : List String) (j : Nat) :
    List (String × PVal) → List Diag → List ElecColEntry →
    Except (Err × List Diag) (List (String × PVal) × List Diag)
  | kwargs, diags, [] => .ok (kwargs, diags)
  | kwargs, diags, c :: rest =>
      if c.name = "group_name" then
        match c.data with
        | none => .error (.keyError "data", diags)
        | some d =>
            let gname := pvalStr (d.getD j (.real none))
            if gname ≠ "" ∧ ¬ egroups.contains gname then
              .error (.typeError, diags ++ [Diag.missingGroup gname])
            else
              applyColKwargs egroups j (pyUpdate kwargs [("group_name", .str gname)]) diags rest
      else if c.data.isSome then
        applyColKwargs egroups j
          (pyUpdate kwargs [(c.name, (c.data.getD []).getD j (.real none))]) diags rest
      else applyColKwargs egroups j kwargs diags rest

/-- The electrode row loop of `add_electrodes` (lines 392-433), iterating the
enumerated channel ids.  When no `group_name` column was reconciled, the
channel's group id resolves through
`self.nwbfile.electrode_groups[str(group_id)]` (lines 427-431), a plain
subscript that raises `KeyError` for an unknown group. -/
def rowLoop (rec : Recording) (remaining : List ElecColEntry)
    (default_updated : List (String × PVal)) (nwb_elec_ids : List Int)
    (egroups : List String) :
    Option ETable → List Diag → List (Nat × Int) →
    Except (Err × Option ETable × List Diag) (Option ETable × List Diag)
  | et, diags, [] => .ok (et, diags)
  | et, diags, (j, channel_id) :: rest =>
      if nwb_elec_ids.contains channel_id then
        rowLoop rec remaining default_updated nwb_elec_ids egroups et diags rest
      else
        let kwargs0 := default_updated
        let kwargs1 :=
          match rec.locations.getD j none with
          | some xy => pyUpdate kwargs0 [("rel_x", .real (some xy.1)), ("rel_y", .real (some xy.2))]
          | none => kwargs0
        match applyColKwargs egroups j kwargs1 diags remaining with
        | .error (e, ds) => .error (e, et, ds)
        | .ok (kwargs2, ds) =>
            if !(remaining.any (·.name = "group_name")) then
              let gname := toString (rec.groups.getD j 0)
              if ¬ egroups.contains gname then .error (.keyError gname, et, ds)
              else
                rowLoop rec remaining default_updated nwb_elec_ids egroups
                  (some (addElectrodeRow et channel_id
                    (pyUpdate kwargs2 [("group_name", .str gname)])))
                  ds rest
            else
              rowLoop rec remaining default_updated nwb_elec_ids egroups
                (some (addElectrodeRow et channel_id kwargs2)) ds rest

/-- An `ECol` from a completed `elec_columns_append` entry (lines 435-436). -/
def colOfEntry (c : ElecColEntry) : ECol :=
  { name := c.name, description := c.description,
    data := c.data.getD [], index := c.index.getD false }

/-- The body of `SI013NwbEphysWriter.add_electrodes` after the duplicate-id
and electrode-group guards (lines 264-439).  The pynwb version is ≥ 1.3.3
(asserted by `write_recording`), so the legacy `rel_x`/`rel_y` column block
of lines 264-268 is not taken. -/
def add_electrodes_core (rec : Recording) (metadata : Option Metadata)
    (exclude_properties : List String) (st : NwbState) (diags0 : List Diag) :
    Except (Err × NwbState × List Diag) (NwbState × List Diag) :=
  let em := (metadata.map Metadata.electrodes_meta).getD []
  if em.any (fun x => x.1 = "group") then .error (.assertionError "group", st, diags0)
  else
    let nwb_elec_ids := (st.electrodes.map ETable.ids).getD []
    let built := buildElecColumns rec exclude_properties
    match applyUserElectrodeMeta built.1 em with
    | .error e => .error (e, st, diags0)
    | .ok ecols1 =>
        match default_updated_of st.electrodes with
        | .error e => .error (e, st, diags0)
        | .ok dflt =>
            match processColumns built.2 (dflt.map Prod.fst) st.electrodes [] ecols1 with
            | .error (e, et1) => .error (e, { st with electrodes := et1 }, diags0)
            | .ok (et1, appendCols) =>
                let remaining := ecols1.filter (fun c => !(appendCols.any (·.name = c.name)))
                match rowLoop rec remaining dflt nwb_elec_ids st.electrode_groups et1 diags0
                    rec.channel_ids.enum with
                | .error (e, et2, ds) => .error (e, { st with electrodes := et2 }, ds)
                | .ok (et2, ds) =>
                    let et3 := appendCols.foldl (fun acc c =>
                      match acc with
                      | none => some { ids := [], cols := [colOfEntry c] }
                      | some tbl => some { tbl with cols := tbl.cols ++ [colOfEntry c] }) et2
                    match et3 with
                    | none => .error (.assertionError "electrodes",
                                      { st with electrodes := none }, ds)
                    | some tbl => .ok ({ st with electrodes := some tbl }, ds)

/-- `SI013NwbEphysWriter.add_electrodes` (lines 234-439): the duplicate-id
all-or-nothing guard of lines 253-257 (warn and return, container untouched),
the electrode-group bootstrap of lines 261-262 (which reaches the inherited
`NotImplementedError` stub), then the reconciliation/table-writing body. -/
def add_electrodes (rec : Recording) (metadata : Option Metadata)
    (exclude_properties : List String) (st : NwbState) :
    Except (Err × NwbState × List Diag) (NwbState × List Diag) :=
  let dup :=
    match st.electrodes with
    | some tbl => !(rec.channel_ids.all (fun id => !(tbl.ids.contains id)))
    | none => false
  if dup then .ok (st, [Diag.electrodesExist])
  else
    if st.electrode_groups.length = 0 then
      match add_electrode_groups st with
      | .error e => .error e
      | .ok (st1, ds) => add_electrodes_core rec metadata exclude_properties st1 ds
    else add_electrodes_core rec metadata exclude_properties st []

/--
Translation of lines 626-633 of `add_electrical_series`: how the scalar
`conversion` field and the optional `channel_conversion` field of the emitted
ElectricalSeries are chosen from the per-channel gains.  `np.unique` of the
gains has length one exactly when the (nonempty) gains are all equal, which is
`List.dedup` having length one.  Python's float literal `1e-6` is modelled as
the rational `1/1000000`.
-/
def conversionKwargs (write_scaled : Bool) (channel_conversion : List Rat) :
    Rat × Option (List Rat) :=
  if write_scaled then (1 / 1000000, none)
  else if channel_conversion.dedup.length = 1 then
    (channel_conversion.headD 0 * (1 / 1000000), none)
  else (1 / 1000000, some channel_conversion)

/-- The kwargs surface of `add_electrical_series` (lines 484-515): `none`
means the key was not passed.  `compression` / `compression_opts` may be
explicitly passed as Python `None`, hence the nested options. -/
structure ESKwargs where
  buffer_mb : Option Int := none
  use_times : Option Bool := none
  write_as : Option String := none
  es_key : Option String := none
  write_scaled : Option Bool := none
  compression : Option (Option String) := none
  compression_opts : Option (Option Int) := none
  iterate : Option Bool := none
deriving DecidableEq, Repr

/-- Python truthiness of `self.nwbfile.electrodes` (line 525): a pynwb
DynamicTable is falsy when absent or when it has zero rows. -/
def electrodesTruthy (et : Option ETable) : Bool :=
  match et with
  | some t => t.ids.length != 0
  | none => false

/-- The compression-option reconciliation of `add_electrical_series`
(lines 534-543): gzip defaults missing opts to 4 and asserts supplied opts
lie in `range(10)`; lzf with supplied opts warns and drops them. -/
def resolveCompression (compression : Option String) (compression_opts : Option Int) :
    Except Err (Option Int × List Diag) :=
  if compression = some "gzip" then
    match compression_opts with
    | none => .ok (some 4, [])
    | some o =>
        if 0 ≤ o ∧ o ≤ 9 then .ok (some o, [])
        else .error (.assertionError "compression_opts")
  else if compression = some "lzf" ∧ compression_opts.isSome then
    .ok (none, [Diag.lzfOptsIgnored])
  else .ok (compression_opts, [])

/-- `check_module` + FilteredEphys creation for `write_as="processed"`
(lines 557-564). -/
def ensureProcessed (st : NwbState) : NwbState :=
  match st.processing_processed with
  | some _ => st
  | none => { st with processing_processed := some [] }

/-- `check_module` + LFP creation for `write_as="lfp"` (lines 571-578). -/
def ensureLFP (st : NwbState) : NwbState :=
  match st.processing_lfp with
  | some _ => st
  | none => { st with processing_lfp := some [] }

/-- The `es_key` metadata override of lines 580-583: asserts the key exists
under `metadata["Ecephys"]` and overwrites the series name/description. -/
def esKeyOverride (metadata : Option Metadata) (es_key : Option String)
    (name0 desc0 : String) : Except Err (String × String) :=
  match metadata, es_key with
  | some m, some k =>
      if m.has_ecephys then
        match m.es_overrides.lookup k with
        | none => .error (.assertionError "es_key")
        | some ov => .ok (ov.1.getD name0, ov.2.getD desc0)
      else .ok (name0, desc0)
  | _, _ => .ok (name0, desc0)

/-- The duplicate-name asserts of lines 585-599, per `write_as` target. -/
def seriesNameTaken (st : NwbState) (write_as : String) (nm : String) : Except Err Bool :=
  if write_as = "raw" then .ok (st.acquisition.any (·.name = nm))
  else if write_as = "processed" then
    match st.processing_processed with
    | some l => .ok (l.any (·.name = nm))
    | none => .error (.keyError "ecephys")
  else
    match st.processing_lfp with
    | some l => .ok (l.any (·.name = nm))
    | none => .error (.keyError "ecephys")

/-- The electrode-table-region construction of lines 601-607:
`list(self.nwbfile.electrodes.id[:]).index(id)` per channel id, raising
`ValueError` for an id absent from the table. -/
def tableRegion (et : Option ETable) (channel_ids : List Int) : Except Err (List Nat) :=
  match et with
  | none => .error .attributeError
  | some tbl =>
      channel_ids.mapM (fun id =>
        match tbl.ids.findIdx? (· = id) with
        | some i => .ok i
        | none => .error Err.valueErrorIdNotInTable)

/-- `np.all([x.is_integer() for x in channel_offset / channel_conversion])`
(lines 614-615).  A rational is an integer exactly when its reduced
denominator is 1; numpy division by a zero gain yields inf/nan, whose
`is_integer()` is false, modelled by the nonzero-gain conjunct. -/
def unsigned_coercion_ok (gains offsets : List Rat) : Bool :=
  (offsets.zip gains).all (fun p => p.2 != 0 && (p.1 / p.2).den == 1)

/-- `np.any(unsigned_coercion != 0)` (line 620). -/
def unsigned_any_nonzero (gains offsets : List Rat) : Bool :=
  (offsets.zip gains).any (fun p => p.1 / p.2 != 0)

/-- `recording.frame_to_time` (spikeextractors): the affine override when one
is set, otherwise frame divided by the sampling frequency. -/
def frameToTimeR (rec : Recording) (f : Int) : Rat :=
  match rec.time_map with
  | some ab => ab.1 * (f : Rat) + ab.2
  | none => (f : Rat) / rec.sampling_frequency

/--
`SI013NwbEphysWriter.add_electrical_series` (lines 442-699).  Inputs beyond
the writer's fields: `available_memory` stands for
`psutil.virtual_memory().available`.  Control flow in source order:
kwargs resolution (484-515), the `buffer_mb` and compression-type asserts
(519-523), the entry `add_electrodes` call when the electrodes table is falsy
(525-526), the `write_as` assert (528-532), compression-option
reconciliation (534-543), series naming and processing-module setup
(545-578), the `es_key` override (580-583), duplicate-name asserts
(585-599), the electrode table region (601-607), the unsigned-coercion hard
check (609-625) — note it does not consult `write_scaled` — conversion
selection (626-633), memory-pressure escalation (635-639), data layout
(640-675), timing fields (678-690) and final placement (692-699).
-/
def add_electrical_series (rec : Recording) (kw : ESKwargs) (metadata : Option Metadata)
    (exclude_properties : List String) (available_memory : Nat) (st : NwbState) :
    Except (Err × NwbState × List Diag) (NwbState × List Diag) :=
  let buffer_mb := kw.buffer_mb.getD 500
  let use_times := kw.use_times.getD false
  let write_as := kw.write_as.getD "raw"
  let es_key := kw.es_key
  let write_scaled := kw.write_scaled.getD false
  let compression := kw.compression.getD (some "gzip")
  let compression_opts0 := kw.compression_opts.getD none
  let iterate0 := kw.iterate.getD true
  if ¬ (10 < buffer_mb) then .error (.assertionError "buffer_mb", st, [])
  else if ¬ (compression = none ∨ compression = some "gzip" ∨ compression = some "lzf") then
    .error (.assertionError "compression", st, [])
  else
    match (if electrodesTruthy st.electrodes then .ok (st, ([] : List Diag))
           else add_electrodes rec metadata exclude_properties st) with
    | .error e => .error e
    | .ok (st1, diags1) =>
        if ¬ (write_as = "raw" ∨ write_as = "processed" ∨ write_as = "lfp") then
          .error (.assertionError "write_as", st1, diags1)
        else
          match resolveCompression compression compression_opts0 with
          | .error e => .error (e, st1, diags1)
          | .ok (compression_opts, ds2) =>
              let diags2 := diags1 ++ ds2
              let name0 := if write_as = "raw" then "ElectricalSeries_raw"
                else if write_as = "processed" then "ElectricalSeries_processed"
                else "ElectricalSeries_lfp"
              let desc0 := if write_as = "raw" then "Raw acquired data"
                else if write_as = "processed" then "Processed data"
                else "Processed data - LFP"
              let st2 := if write_as = "processed" then ensureProcessed st1
                else if write_as = "lfp" then ensureLFP st1 else st1
              match esKeyOverride metadata es_key name0 desc0 with
              | .error e => .error (e, st2, diags2)
              | .ok nd =>
                  match seriesNameTaken st2 write_as nd.1 with
                  | .error e => .error (e, st2, diags2)
                  | .ok taken =>
                      if taken then .error (.assertionError "series_name", st2, diags2)
                      else
                        match tableRegion st2.electrodes rec.channel_ids with
                        | .error e => .error (e, st2, diags2)
                        | .ok region =>
                            if ¬ unsigned_coercion_ok rec.gains rec.offsets then
                              .error (.coercionNotImplemented, st2, diags2)
                            else
                              let diags3 :=
                                if unsigned_any_nonzero rec.gains rec.offsets then
                                  diags2 ++ [Diag.unsignedOffsets]
                                else diags2
                              let conv := conversionKwargs write_scaled rec.gains
                              let estimated :=
                                rec.itemsize * rec.channel_ids.length * rec.num_frames
                              let forced := (!iterate0) && decide (available_memory ≤ estimated)
                              let diags4 :=
                                if forced then diags3 ++ [Diag.forcedIterate] else diags3
                              let iterate1 := iterate0 || forced
                              let data :=
                                if iterate1 then
                                  if rec.traces_memmap && rec.offsets.all (fun o => o == 0) then
                                    SeriesData.memmapChunked
                                      ((buffer_mb * 1000000).toNat /
                                        (rec.channel_ids.length * rec.itemsize))
                                  else SeriesData.generatorChunked
                                else SeriesData.fullArray
                              let es : ESeries :=
                                { name := nd.1, description := nd.2,
                                  electrodes_region := region,
                                  conversion := conv.1, channel_conversion := conv.2,
                                  data := data,
                                  compression := compression,
                                  compression_opts := compression_opts,
                                  starting_time :=
                                    if use_times then none else some (frameToTimeR rec 0),
                                  rate :=
                                    if use_times then none else some rec.sampling_frequency,
                                  use_timestamps := use_times }
                              let newProcessed := some ((st2.processing_processed.getD []) ++ [es])
                              let newLFP := some ((st2.processing_lfp.getD []) ++ [es])
                              if write_as = "raw" then
                                .ok ({ st2 with acquisition := st2.acquisition ++ [es] }, diags4)
                              else if write_as = "processed" then
                                .ok ({ st2 with processing_processed := newProcessed }, diags4)
                              else
                                .ok ({ st2 with processing_lfp := newLFP }, diags4)

/-- `_default_sorting_property_descriptions` (si013nwbephyswriter.py
lines 29-40). -/
def default_sorting_property_descriptions : List (String × String) :=
  [("isi_violation",
    "Quality metric that measures the ISI violation ratio as a proxy for the purity of the unit."),
   ("firing_rate", "Number of spikes per unit of time."),
   ("template", "The extracellular average waveform."),
   ("max_channel", "The recording channel id with the largest amplitude."),
   ("halfwidth",
    "The full-width half maximum of the negative peak computed on the maximum channel."),
   ("peak_to_valley",
    "The duration between the negative and the positive peaks computed on the maximum channel."),
   ("snr", "The signal-to-noise ratio of the unit."),
   ("quality", "Quality of the unit as defined by phy (good, mua, noise)."),
   ("spike_amplitude", "Average amplitude of peaks detected on the channel."),
   ("spike_rate", "Average rate of peaks detected on the channel.")]

/-- A Python shape value in the property-shape comparisons of `add_units`
(lines 743-762): scalars contribute the int `1`, 1-d sequences their int
length, higher-rank arrays a tuple.  Python `==` between an int and a tuple
is false, which derived equality reproduces.  On the modelled value universe
(spec section 3: scalars, strings, 1-D arrays) property values never have
rank above 1, so the `tup` case does not arise from `collect_property_shapes`. -/
inductive ShapeV where
  | int (n : Nat)
  | tup (dims : List Nat)
deriving DecidableEq, Repr

/-- The per-property unit loop of lines 745-761: collects the shape of each
unit's value (`none` = the unit lacks the property, Python appends `np.nan`);
a dict value prints a diagnostic, flags the skip and breaks (the partial
shape list is still recorded at line 762).  The Bool is the dict-break
flag. -/
def collect_property_shapes : List (Option PVal) → List (Option ShapeV) × Bool
  | [] => ([], false)
  | none :: r =>
      let p := collect_property_shapes r
      (none :: p.1, p.2)
  | some v :: r =>
      match v with
      | .dict => ([], true)
      | .lst xs =>
          let p := collect_property_shapes r
          (some (.int xs.length) :: p.1, p.2)
      | .arr xs =>
          let p := collect_property_shapes r
          (some (.int xs.length) :: p.1, p.2)
      | _ =>
          let p := collect_property_shapes r
          (some (.int 1) :: p.1, p.2)

/-- The outer property-shape loop of lines 743-762 over all properties,
returning `property_shapes` plus the appended `skip_properties` and the
printed diagnostics. -/
def property_shapes_pass (props : List (String × List (Option PVal))) :
    List (String × List (Option ShapeV)) × List String × List Diag :=
  props.foldl (fun acc pr =>
    let c := collect_property_shapes pr.2
    (acc.1 ++ [(pr.1, c.1)],
     if c.2 then acc.2.1 ++ [pr.1] else acc.2.1,
     if c.2 then acc.2.2 ++ [Diag.skipPropertyDict pr.1] else acc.2.2))
    ([], [], [])

/-- `np.all([elem == elems[0] for elem in elems])`: vacuously true on an
empty list (the comprehension never evaluates `elems[0]`). -/
def shapes_all_equal (elems : List ShapeV) : Bool :=
  match elems with
  | [] => true
  | e :: _ => elems.all (· == e)

/-- The variable-size property check of lines 764-768. -/
def property_variable_pass (pshapes : List (String × List (Option ShapeV))) :
    List String × List Diag :=
  pshapes.foldl (fun acc pr =>
    if shapes_all_equal (pr.2.filterMap id) then acc
    else (acc.1 ++ [pr.1], acc.2 ++ [Diag.skipPropertyVariable pr.1]))
    ([], [])

/-- The unit-column creation of lines 771-782: the missing-description
warning loop, then `add_unit_column` per written property (with the
electrodes-table link for `max_channel` / `max_electrode`).  Python iterates
the `write_properties` set in unspecified order; the model fixes the
extractor's property order. -/
def unit_columns_of (write_properties : List String)
    (descriptions : List (String × String)) (has_electrodes : Bool) :
    List UCol × List Diag :=
  ((write_properties.map (fun pr =>
      { name := pr,
        description := (descriptions.lookup pr).getD "No description.",
        data := [], rowIndex := none,
        tableRef := ((pr = "max_channel" ∨ pr = "max_electrode") ∧ has_electrodes : Bool) })),
   (write_properties.filter (fun pr => (descriptions.lookup pr).isNone)).map Diag.noDescription)

/-- `sorting.frame_to_time` (spikeextractors): affine override when set,
otherwise frame over sampling frequency. -/
def frameToTimeS (s : Sorting) (fs : Rat) (f : Int) : Rat :=
  match s.time_map with
  | some ab => ab.1 * (f : Rat) + ab.2
  | none => (f : Rat) / fs

/-- The unit row loop of lines 784-796: spike times from `frame_to_time`
when `use_times` else frames divided by the sampling frequency; per written
property the unit's value or `np.nan` when missing; `add_unit` appends the
row. -/
def add_units_rows (sorting : Sorting) (fs : Rat) (use_times : Bool)
    (cols0 : List UCol) : UTable :=
  sorting.unit_ids.enum.foldl (fun t jid =>
    let train := sorting.spike_trains.getD jid.1 []
    let spkt := if use_times then train.map (frameToTimeS sorting fs)
                else train.map (fun f => (f : Rat) / fs)
    { ids := t.ids ++ [jid.2],
      spike_times := t.spike_times ++ [spkt],
      cols := t.cols.map (fun c =>
        let v := match (sorting.props.lookup c.name).bind (fun l => l.getD jid.1 none) with
          | some pv => pv
          | none => PVal.real none
        { c with data := c.data ++ [v] }) })
    { ids := [], spike_times := [], cols := cols0 }

/-- The per-spike sequence length of a feature entry, when it is one. -/
def seqLen : PVal → Option Nat
  | .lst xs => some xs.length
  | .arr xs => some xs.length
  | _ => none

/-- `np.array(feat_value).shape` when its ndim exceeds 1 (line 808): the
rank-2 shape exists exactly when every per-spike entry is an equal-length
sequence; the 2021-era numpy otherwise yields a 1-d object array and the
`ndim > 1` test fails. -/
def featMatrixShape (fv : List PVal) : Option (List Nat) :=
  match fv.head?.bind seqLen with
  | none => none
  | some L => if fv.all (fun v => seqLen v == some L) then some [fv.length, L] else none

/-- Outcome of the per-feature unit scan of lines 801-818. -/
inductive FeatScan where
  | completed
  | scalarBreak
  | dictSkip
  | notSharedSkip
deriving DecidableEq, Repr

/-- The per-feature unit loop of lines 801-818: `feat_value[0]` raises
`IndexError` on an empty sequence; a scalar first entry breaks (the feature
stays 1-d); sequence entries contribute a rank-2 shape when `np.array` sees
one; a dict first entry or a unit lacking the feature prints, flags the skip
and breaks. -/
def collect_feature_shapes : List (Option (List PVal)) → Except Err (List (List Nat) × FeatScan)
  | [] => .ok ([], .completed)
  | none :: _ => .ok ([], .notSharedSkip)
  | some fv :: r =>
      match fv.head? with
      | none => .error .indexError
      | some v =>
          match v with
          | .dict => .ok ([], .dictSkip)
          | .lst _ =>
              (match featMatrixShape fv with
               | some dims => (collect_feature_shapes r).map (fun p => (dims :: p.1, p.2))
               | none => collect_feature_shapes r)
          | .arr _ =>
              (match featMatrixShape fv with
               | some dims => (collect_feature_shapes r).map (fun p => (dims :: p.1, p.2))
               | none => collect_feature_shapes r)
          | _ => .ok ([], .scalarBreak)

/-- The outer feature-shape loop of lines 798-818: `feature_shapes` holds an
entry only for features that contributed at least one rank-2 shape. -/
def feature_shapes_pass (features : List (String × List (Option (List PVal)))) :
    Except Err (List (String × List (List Nat)) × List String × List Diag) :=
  features.foldlM (fun acc ftp =>
    (collect_feature_shapes ftp.2).map (fun res =>
      ((if res.1.isEmpty then acc.1 else acc.1 ++ [(ftp.1, res.1)]),
       (match res.2 with
        | .dictSkip => acc.2.1 ++ [ftp.1]
        | .notSharedSkip => acc.2.1 ++ [ftp.1]
        | _ => acc.2.1),
       (match res.2 with
        | .dictSkip => acc.2.2 ++ [Diag.skipFeatureDict ftp.1]
        | .notSharedSkip => acc.2.2 ++ [Diag.skipFeatureNotShared ftp.1]
        | _ => acc.2.2))))
    ([], [], [])

/-- `get_num_spikes` (si013nwbephyswriter.py lines 894-904): the unit's row
count of the ragged `spike_times` column, read off the cumulative
`spike_times_index`. -/
def get_num_spikes (units_table : UTable) (unit_id : Int) : Except Err Int :=
  let sti := cumsum (units_table.spike_times.map (fun l => (l.length : Int)))
  match units_table.ids.findIdx? (· = unit_id) with
  | none => .error .valueErrorInvalidUnitId
  | some 0 => .ok (sti.getD 0 0)
  | some (i + 1) => .ok (sti.getD (i + 1) 0 - sti.getD i 0)

/-- `nspikes = {k: get_num_spikes(self.nwbfile.units, int(k)) for k in unit_ids}`
(line 820). -/
def nspikes_of (t : UTable) (unit_ids : List Int) : Except Err (List (Int × Int)) :=
  unit_ids.mapM (fun k => (get_num_spikes t k).map (fun n => (k, n)))

/-- The variable-size feature check of lines 822-826: feature shapes are
compared with the leading (per-spike) dimension discounted. -/
def feature_variable_pass (fshapes : List (String × List (List Nat))) :
    List String × List Diag :=
  fshapes.foldl (fun acc ftp =>
    let ok := match ftp.2 with
      | [] => true
      | e :: _ => ftp.2.all (fun s => s.tail == e.tail)
    if ok then acc
    else (acc.1 ++ [ftp.1], acc.2 ++ [Diag.skipFeatureVariable ftp.1]))
    ([], [])

/-- `set_dynamic_table_property` (basenwbephyswriter.py lines 111-147) on the
indexed (`index` non-False) branch: validates the row ids, raises
`NotImplementedError` when the column already exists, else adds the ragged
column.  The int/str type checks of lines 121-127 hold by the model's
typing. -/
def set_dynamic_table_property_indexed (t : UTable) (row_ids : List Int)
    (property_name : String) (values : List PVal) (index : List Int) : Except Err UTable :=
  if row_ids.any (fun i => ¬ t.ids.contains i) then .error .valueErrorIdNotInTable
  else if t.cols.any (·.name = property_name) then .error .notImplementedError
  else .ok { t with cols := t.cols ++
      [{ name := property_name, description := "no description",
         data := values, rowIndex := some index, tableRef := false }] }

/-- The unit loop of the feature-writing pass (lines 831-844): a unit whose
feature sequence is shorter than its spike count prints, flags the skip and
breaks; after a break the partial `values` still flow to lines 846-858.  The
Bool is the break flag.  A unit lacking the feature raises inside
`get_unit_spike_features`. -/
def collect_feature_values (ft : String) :
    List (Int × Option (List PVal)) → List (Int × Int) → Except Err (List (List PVal) × Bool)
  | [], _ => .ok ([], false)
  | (uid, ofv) :: r, nspikes =>
      match ofv with
      | none => .error (.valueErrorNoFeature ft)
      | some fv =>
          if (fv.length : Int) < (nspikes.lookup uid).getD 0 then .ok ([], true)
          else (collect_feature_values ft r nspikes).map (fun p => (fv :: p.1, p.2))

/-- The mutable state of the feature-writing pass of lines 828-858. -/
structure FeatPassState where
  table : UTable
  skip_features : List String
  diags : List Diag
deriving DecidableEq, Repr

/-- Lines 834-837: on a mid-loop break the feature is appended to
`skip_features` and the skip diagnostic printed; otherwise nothing happens. -/
def flagShortFeature (s : FeatPassState) (ft : String) (broke : Bool) : FeatPassState :=
  if broke then
    { s with skip_features := s.skip_features ++ [ft],
             diags := s.diags ++ [Diag.skipFeatureNotAllSpikes ft] }
  else s

/-- Python `str.endswith`, modelled over the character list (`String.data`)
so that it evaluates on closed inputs. -/
def pyEndsWith (s suffix : String) : Bool :=
  suffix.data.isSuffixOf s.data

/-- The per-unit feature access of the write-pass unit loop:
`self.sorting.get_unit_spike_features(unit_id, ft)` per unit id in order
(`none` when the unit lacks the feature, which raises inside the getter). -/
def featurePerUnit (sorting : Sorting) (ft : String) : List (Int × Option (List PVal)) :=
  sorting.unit_ids.enum.map
    (fun ju => (ju.2, ((sorting.features.lookup ft).getD []).getD ju.1 none))

/--
One iteration of the feature-writing loop of `add_units` (lines 828-858),
for feature `ft`:

    for ft in set(all_features) - set(skip_features):
        values = []
        if not ft.endswith("_idxs"):
            ... unit loop, flatten, spikes_index, already-present check,
            set_dynamic_table_property(...)

The `endswith("_idxs")` guard encloses every effect of the iteration, so a
`_idxs`-suffixed feature leaves the table, the skip list and the diagnostics
untouched, with no diagnostic recording the exclusion.  `ft in
self.nwbfile.units` is pynwb DynamicTable membership over column names
(which include the built-in `spike_times`).
-/
def feature_write_step (sorting : Sorting) (nspikes : List (Int × Int))
    (s : FeatPassState) (ft : String) : Except (Err × FeatPassState) FeatPassState :=
  if pyEndsWith ft "_idxs" then .ok s
  else
    match collect_feature_values ft (featurePerUnit sorting ft) nspikes with
    | .error e => .error (e, s)
    | .ok vb =>
        if (flagShortFeature s ft vb.2).table.cols.any (·.name = ft) || ft == "spike_times" then
          .ok { flagShortFeature s ft vb.2 with
                diags := (flagShortFeature s ft vb.2).diags ++ [Diag.featureAlreadyPresent ft] }
        else
          match set_dynamic_table_property_indexed (flagShortFeature s ft vb.2).table
              sorting.unit_ids ft vb.1.flatten (cumsum (nspikes.map (fun p => p.2))) with
          | .error e => .error (e, flagShortFeature s ft vb.2)
          | .ok t2 => .ok { flagShortFeature s ft vb.2 with table := t2 }

/-- The feature-writing loop of lines 828-858 over the iteration set
`set(all_features) - set(skip_features)` (computed once; the model fixes the
extractor's feature order). -/
def feature_write_pass (sorting : Sorting) (nspikes : List (Int × Int)) :
    FeatPassState → List String → Except (Err × FeatPassState) FeatPassState
  | s, [] => .ok s
  | s, ft :: rest =>
      match feature_write_step sorting nspikes s ft with
      | .error e => .error e
      | .ok s1 => feature_write_pass sorting nspikes s1 rest

/-- The kwargs surface of `add_units` (lines 704-719). -/
structure UnitsKwargs where
  property_descriptions : Option (List (String × String)) := none
  use_times : Option Bool := none
  skip_properties : Option (List String) := none
  skip_features : Option (List String) := none
deriving DecidableEq, Repr

/--
`SI013NwbEphysWriter.add_units` (lines 701-860).  Control flow in source
order: kwargs resolution (704-719), the sampling-frequency precondition
(721-724), property/feature collection (726-730), description merging
(732-739), then — only when `self.nwbfile.units is None` (741) — the
property-shape passes, column creation, unit rows, feature-shape passes,
`nspikes`, and the feature-writing pass; otherwise the table is left
untouched with a warning (859-860).
-/
def add_units (sorting : Sorting) (kw : UnitsKwargs) (st : NwbState) :
    Except (Err × NwbState × List Diag) (NwbState × List Diag) :=
  let use_times := kw.use_times.getD false
  match sorting.sampling_frequency with
  | none => .error (.valueErrorNoSamplingFrequency, st, [])
  | some fs =>
      let all_properties := (sorting.props.filter (fun p => p.2.any Option.isSome)).map Prod.fst
      let all_features := (sorting.features.filter (fun p => p.2.any Option.isSome)).map Prod.fst
      let property_descriptions :=
        pyUpdate default_sorting_property_descriptions (kw.property_descriptions.getD [])
      match st.units with
      | some _ => .ok (st, [Diag.unitsExist])
      | none =>
          let pprops := all_properties.map (fun pr => (pr, (sorting.props.lookup pr).getD []))
          let ps := property_shapes_pass pprops
          let pv := property_variable_pass ps.1
          let skip_properties := (kw.skip_properties.getD []) ++ ps.2.1 ++ pv.1
          let diagsP := ps.2.2 ++ pv.2
          let write_properties := all_properties.filter (fun pr => ¬ skip_properties.contains pr)
          let colsDg := unit_columns_of write_properties property_descriptions st.electrodes.isSome
          let table1 := add_units_rows sorting fs use_times colsDg.1
          let feats := all_features.map (fun ft => (ft, (sorting.features.lookup ft).getD []))
          match feature_shapes_pass feats with
          | .error e => .error (e, { st with units := some table1 }, diagsP ++ colsDg.2)
          | .ok fsp =>
              match nspikes_of table1 sorting.unit_ids with
              | .error e =>
                  .error (e, { st with units := some table1 }, diagsP ++ colsDg.2 ++ fsp.2.2)
              | .ok nspikes =>
                  let fv := feature_variable_pass fsp.1
                  let skip_features := (kw.skip_features.getD []) ++ fsp.2.1 ++ fv.1
                  let diags1 := diagsP ++ colsDg.2 ++ fsp.2.2 ++ fv.2
                  let writeFts := all_features.filter (fun ft => ¬ skip_features.contains ft)
                  match feature_write_pass sorting nspikes
                      { table := table1, skip_features := skip_features, diags := diags1 }
                      writeFts with
                  | .error es => .error (es.1, { st with units := some es.2.table }, es.2.diags)
                  | .ok s2 => .ok ({ st with units := some s2.table }, s2.diags)

/-- JSON-like metadata tree used by the metadata merge engine. -/
inductive JTree where
  | leaf (s : String)
  | node (kvs : List (String × JTree))

mutual

/-- Modelled from the spec: `dict_deep_update` lives in
`utils/json_schema.py`, which is not under src/.  Per the spec (section 4.4)
it recursively merges a user-supplied tree onto a default tree, with user
leaves winning, mappings merged by key (not concatenated), and unknown keys
passed through unchanged. -/
def dict_deep_update : JTree → JTree → JTree
  | JTree.node kv1, JTree.node kv2 =>
      JTree.node (deepMergeKVs kv1 kv2 ++ kv2.filter (fun p => (kv1.lookup p.1).isNone))
  | _, t2 => t2

/-- Merge each default key against the user tree (helper of
`dict_deep_update`). -/
def deepMergeKVs : List (String × JTree) → List (String × JTree) → List (String × JTree)
  | [], _ => []
  | (k, v) :: rest, kv2 =>
      (match kv2.lookup k with
       | some u => (k, dict_deep_update v u)
       | none => (k, v)) :: deepMergeKVs rest kv2

end

/--
Translation of the metadata resolution of `write_recording`
(si013nwbephyswriter.py lines 118-123):

  if hasattr(self.recording, "nwb_metadata"):
      metadata = dict_deep_update(self.recording.nwb_metadata, self.metadata)
  elif self.metadata is None:
      self.metadata = self.get_nwb_metadata()

When the recording carries attached metadata, the deep-merge result is bound
to the local variable `metadata`, which is never read again; the writer's
`self.metadata` — what every subsequent `add_*` step consults — is left as the
user-supplied value.  The returned value is the effective `self.metadata`
after this block.
-/
def write_recording_effective_metadata (attached_nwb_metadata : Option JTree)
    (user_metadata : Option JTree) (recording_defaults : JTree) : Option JTree :=
  match attached_nwb_metadata with
  | some attached =>
      let _metadata_local :=
        dict_deep_update attached (user_metadata.getD (JTree.node []))
      user_metadata
  | none =>
      match user_metadata with
      | none => some recording_defaults
      | some m => some m

/-! ## Concrete fixtures used by witnesses and counterexamples -/

/-- A fresh container with one device and the default electrode group. -/
def demoState : NwbState :=
  { devices := ["Device"], electrode_groups := ["0"], electrodes := none, units := none,
    acquisition := [], processing_processed := none, processing_lfp := none }

/-- A fresh container with no electrode groups. -/
def demoStateNoGroups : NwbState := { demoState with electrode_groups := [] }

/-- A one-channel recording carrying one real-valued property `p`. -/
def demoRecording : Recording :=
  { channel_ids := [0], props := [("p", [some (.real (some 1))])], groups := [0],
    locations := [none], gains := [1], offsets := [0], sampling_frequency := 1000,
    time_map := none, num_frames := 10, itemsize := 2, traces_memmap := false }

/-- The same one-channel recording with no properties. -/
def demoRecordingNoProps : Recording := { demoRecording with props := [] }

/-- The same recording with a non-integer offset/gain ratio (gain 1,
offset 1/2). -/
def demoRecordingHalfOffset : Recording := { demoRecordingNoProps with offsets := [1 / 2] }

/-- User metadata pinning a column `q` that is not a property of the source. -/
def demoMetadataQ : Metadata :=
  { electrodes_meta := [("q", "user column")], es_overrides := [], has_ecephys := true }

/-- A container whose electrodes table already holds channel id 0. -/
def demoStateWithElectrode : NwbState :=
  { demoState with electrodes := some { ids := [0], cols := [] } }

/-- The built-in electrode columns created by the first `add_electrode` row of
`demoRecordingNoProps`. -/
def demoBuiltinCols : List ECol :=
  [{ name := "x", description := "", data := [.real none], index := false },
   { name := "y", description := "", data := [.real none], index := false },
   { name := "z", description := "", data := [.real none], index := false },
   { name := "imp", description := "", data := [.real (some (-1))], index := false },
   { name := "location", description := "", data := [.str "unknown"], index := false },
   { name := "filtering", description := "", data := [.str "none"], index := false },
   { name := "group_name", description := "", data := [.str "0"], index := false }]

/-- `demoState` after the entry `add_electrodes` call of
`add_electrical_series` has run for `demoRecordingNoProps`. -/
def demoStateAfterEntryAdd : NwbState :=
  { demoState with electrodes := some { ids := [0], cols := demoBuiltinCols } }

/-- The column the phantom user entry `q` stops `add_electrodes` at: the real
column `p` has been created on a fresh (empty) electrodes table when the
`KeyError` for `q` is raised. -/
def demoPhantomStopTable : ETable :=
  { ids := [], cols := [{ name := "p", description := "p", data := [], index := false }] }

/-- The container state at the moment the phantom-column `KeyError` is
raised. -/
def demoStatePhantomStop : NwbState :=
  { demoState with electrodes := some demoPhantomStopTable }

/-- A one-unit sorting with no known sampling frequency. -/
def demoSortingNoFs : Sorting :=
  { unit_ids := [1], sampling_frequency := none, props := [], spike_trains := [[0]],
    features := [], time_map := none }

/-- The same one-unit sorting with a known sampling frequency. -/
def demoSorting : Sorting := { demoSortingNoFs with sampling_frequency := some 1000 }

/-- A container whose units table is already populated (one row). -/
def demoStateWithUnits : NwbState :=
  { demoState with units := some { ids := [1], spike_times := [[0]], cols := [] } }

/-! ## C1: column typing in add_electrodes -/

/-- Helper for C1: once `prop_chan_count` is positive, the builder loop never
skips and never changes the fixed type; it only appends one entry per
remaining channel. -/
theorem buildPropColumnAux_pos (rest : List (Option PVal)) :
    ∀ (cnt : Nat) (ft : PType) (data : List PVal), cnt ≠ 0 →
      ∃ d, buildPropColumnAux cnt ft data rest = some (ft, d) ∧
        d.length = data.length + rest.length := by
  induction rest with
  | nil => exact fun cnt ft data _ => ⟨data, rfl, by simp⟩
  | cons x rest ih =>
      intro cnt ft data h
      match x with
      | none =>
          obtain ⟨d, hd, hl⟩ := ih cnt ft (data ++ [channel_property_defaults ft]) h
          refine ⟨d, by simpa [buildPropColumnAux] using hd, ?_⟩
          simp at hl
          simp [hl]
          omega
      | some v =>
          obtain ⟨d, hd, hl⟩ := ih (cnt + 1) ft (data ++ [v]) (by omega)
          refine ⟨d, ?_, ?_⟩
          · rw [buildPropColumnAux, if_neg h]
            exact hd
          · simp at hl
            simp [hl]
            omega

/-- Helper for C1: behaviour of the builder loop at the first present value,
after a prefix of channels lacking the property. -/
theorem buildPropColumnAux_first (v : PVal) (rest : List (Option PVal)) :
    ∀ (pre : List (Option PVal)), (∀ x ∈ pre, x = none) → ∀ (data : List PVal),
      (firstMatching v = none →
        buildPropColumnAux 0 .tReal data (pre ++ some v :: rest) = none) ∧
      (∀ t, firstMatching v = some t →
        ∃ d, buildPropColumnAux 0 .tReal data (pre ++ some v :: rest) = some (t, d) ∧
          d.length = data.length + pre.length + 1 + rest.length) := by
  intro pre
  induction pre with
  | nil =>
      intro _ data
      constructor
      · intro hnone
        simp [buildPropColumnAux, hnone]
      · intro t ht
        obtain ⟨d, hd, hl⟩ :=
          buildPropColumnAux_pos rest 1 t (resetWrongDefaults data t ++ [v]) one_ne_zero
        refine ⟨d, ?_, ?_⟩
        · rw [List.nil_append, buildPropColumnAux, if_pos rfl, ht]
          exact hd
        · have hrl : (resetWrongDefaults data t).length = data.length := by
            unfold resetWrongDefaults
            split <;> simp
          simp [hrl] at hl
          simp [hl]
  | cons x pre ih =>
      intro hall data
      have hx : x = none := hall x (by simp)
      subst hx
      have hrec := ih (fun y hy => hall y (List.mem_cons_of_mem _ hy))
        (data ++ [channel_property_defaults .tReal])
      constructor
      · intro hnone
        rw [List.cons_append, buildPropColumnAux]
        exact hrec.1 hnone
      · intro t ht
        obtain ⟨d, hd, hl⟩ := hrec.2 t ht
        refine ⟨d, ?_, ?_⟩
        · rw [List.cons_append, buildPropColumnAux]
          exact hd
        · simp at hl
          simp [hl]
          omega

/--
C1 (amended): in `add_electrodes`, a property column's type is fixed by the
first observed (non-missing) value; when that first value is of an
unsupported type the property is skipped entirely (and no diagnostic is
emitted); when it is supported, the property is kept with that fixed type and
one data entry per channel — values of subsequent channels are appended
without any type check, so a later incompatible value is stored as-is.
-/
theorem C1_first_value_fixes_type (pre : List (Option PVal)) (v : PVal)
    (rest : List (Option PVal)) (hpre : ∀ x ∈ pre, x = none) :
    (firstMatching v = none → buildPropColumn (pre ++ some v :: rest) = none) ∧
    (∀ t, firstMatching v = some t →
      ∃ d, buildPropColumn (pre ++ some v :: rest) = some (t, d) ∧
        d.length = (pre ++ some v :: rest).length) := by
  have h := buildPropColumnAux_first v rest pre hpre []
  refine ⟨h.1, fun t ht => ?_⟩
  obtain ⟨d, hd, hl⟩ := h.2 t ht
  refine ⟨d, hd, ?_⟩
  simp at hl
  simp [hl]
  omega

/-- Witness for `C1_first_value_fixes_type` at a concrete input: a string
first value after one channel lacking the property. -/
theorem C1_first_value_fixes_type_witness :
    (firstMatching (PVal.str "a") = none →
      buildPropColumn [none, some (PVal.str "a"), some (PVal.real (some 2))] = none) ∧
    (∀ t, firstMatching (PVal.str "a") = some t →
      ∃ d, buildPropColumn [none, some (PVal.str "a"), some (PVal.real (some 2))] = some (t, d) ∧
        d.length = ([none, some (PVal.str "a"), some (PVal.real (some 2))] :
          List (Option PVal)).length) :=
  C1_first_value_fixes_type [none] (PVal.str "a") [some (PVal.real (some 2))] (by decide)

/--
C1 counterexample: a property whose first channel value is a real and whose
second channel value is a string is NOT skipped — `buildPropColumn` keeps the
property with fixed type `Real` and stores the string value unchanged, a
mixed-type column, contradicting the claim that a subsequent incompatible
value forces the property to be skipped with a diagnostic.
-/
theorem C1_counterexample :
    buildPropColumn [some (PVal.real (some 1)), some (PVal.str "a")]
      = some (PType.tReal, [PVal.real (some 1), PVal.str "a"]) ∧
    isinstanceB (PVal.str "a") PType.tReal = false := by decide

/-! ## C7: conversion-factor selection in add_electrical_series -/

/-- Helper for C7: `dedup` of a nonempty constant list is the singleton. -/
theorem dedup_of_uniform {l : List Rat} {g : Rat} (hne : l ≠ []) (h : ∀ x ∈ l, x = g) :
    l.dedup = [g] := by
  induction l with
  | nil => cases hne rfl
  | cons a t ih =>
      have ha : a = g := h a (by simp)
      subst ha
      cases t with
      | nil => simp
      | cons b t2 =>
          have hb : b = a := h b (by simp)
          have ht : (b :: t2).dedup = [a] :=
            ih (by simp) (fun x hx => h x (List.mem_cons_of_mem _ hx))
          rw [List.dedup_cons_of_mem (by simp [hb]), ht]

/--
C7: in `add_electrical_series` with `write_scaled` false, uniform per-channel
gains `g` yield `conversion = g * 1e-6` with no `channel_conversion` field,
while non-uniform gains yield `conversion = 1e-6` with the gains carried as
`channel_conversion` (lines 626-633; `conversionKwargs` is the pair
(`conversion`, `channel_conversion`) written into the emitted series).
-/
theorem C7_conversion_selection (gains : List Rat) (g : Rat) :
    (gains ≠ [] → (∀ x ∈ gains, x = g) →
      conversionKwargs false gains = (g * (1 / 1000000), none)) ∧
    (∀ a b, a ∈ gains → b ∈ gains → a ≠ b →
      conversionKwargs false gains = (1 / 1000000, some gains)) := by
  constructor
  · intro hne hall
    have hd := dedup_of_uniform hne hall
    cases gains with
    | nil => cases hne rfl
    | cons x t =>
        have hx : x = g := hall x (by simp)
        subst hx
        simp [conversionKwargs, hd]
  · intro a b ha hb hab
    have hlen : ¬ gains.dedup.length = 1 := by
      intro h1
      obtain ⟨c, hc⟩ := List.length_eq_one.1 h1
      have ha2 : a ∈ gains.dedup := List.mem_dedup.2 ha
      have hb2 : b ∈ gains.dedup := List.mem_dedup.2 hb
      rw [hc] at ha2 hb2
      simp at ha2 hb2
      exact hab (ha2.trans hb2.symm)
    simp [conversionKwargs, hlen]

/-- Witness for `C7_conversion_selection`: uniform gains `[2, 2]` and
non-uniform gains `[1, 2]`. -/
theorem C7_conversion_selection_witness :
    conversionKwargs false [2, 2] = ((2 : Rat) * (1 / 1000000), none) ∧
    conversionKwargs false [1, 2] = ((1 : Rat) / 1000000, some [1, 2]) :=
  ⟨(C7_conversion_selection [2, 2] 2).1 (by decide) (by decide),
   (C7_conversion_selection [1, 2] 0).2 1 2 (by decide) (by decide) (by decide)⟩

/-! ## C8: metadata merge in write_recording -/

/--
C8: `write_recording` computes
`dict_deep_update(self.recording.nwb_metadata, self.metadata)` into a local
variable it never reads again (lines 118-123), so with attached metadata
`{NWBFile: _}` and user metadata `{}` the effective metadata for all
subsequent steps is the raw user value `{}`, not the deep merge (which keeps
the attached key) — contradicting the claim that the merged tree is used.
-/
theorem C8_merge_result_discarded :
    write_recording_effective_metadata
        (some (JTree.node [("NWBFile", JTree.leaf "attached session")]))
        (some (JTree.node [])) (JTree.node [])
      = some (JTree.node []) ∧
    dict_deep_update (JTree.node [("NWBFile", JTree.leaf "attached session")])
        (JTree.node [])
      = JTree.node [("NWBFile", JTree.leaf "attached session")] ∧
    JTree.node [("NWBFile", JTree.leaf "attached session")] ≠ JTree.node [] := by
  refine ⟨rfl, ?_, by simp⟩
  simp [dict_deep_update, deepMergeKVs]

/-! ## C2: the unsigned-coercion precondition and write_scaled -/

/-- Helper for C2: under a populated electrodes table and default raw-mode
kwargs, a failing unsigned-coercion check makes `add_electrical_series` raise
`NotImplementedError` with the container unchanged — regardless of every
other kwarg, including `write_scaled`. -/
theorem add_electrical_series_coercion_raises (rec : Recording) (kw : ESKwargs)
    (metadata : Option Metadata) (excl : List String) (avail : Nat) (st : NwbState)
    (htr : electrodesTruthy st.electrodes = true)
    (hbuf : 10 < kw.buffer_mb.getD 500)
    (hcz : kw.compression.getD (some "gzip") = some "gzip")
    (ho : kw.compression_opts.getD none = none)
    (hwa : kw.write_as.getD "raw" = "raw")
    (hes : kw.es_key = none)
    (hnm : st.acquisition.any (fun e => e.name = "ElectricalSeries_raw") = false)
    (r : List Nat) (hregion : tableRegion st.electrodes rec.channel_ids = .ok r)
    (hcoerce : unsigned_coercion_ok rec.gains rec.offsets = false) :
    add_electrical_series rec kw metadata excl avail st
      = .error (.coercionNotImplemented, st, []) := by
  have hsnt : seriesNameTaken st "raw" "ElectricalSeries_raw" = .ok false := by
    simp [seriesNameTaken, hnm]
  simp only [add_electrical_series, htr, hcz, ho, hwa, hes]
  rw [if_neg (by omega)]
  rw [if_neg (by simp)]
  simp only [if_true]
  rw [if_neg (by simp)]
  rw [show resolveCompression (some "gzip") none = .ok (some 4, []) from rfl]
  simp [esKeyOverride, hsnt, hregion, hcoerce]

/--
C2: the non-integer `offset/gain` check of `add_electrical_series`
(lines 612-619) raises `NotImplementedError` even when the caller passed
`write_scaled=True` — the check never consults `write_scaled`, although its
own message instructs the caller to pass it.  Concretely: one channel with
gain 1 and offset 1/2, `write_scaled=True`, a populated electrodes table;
the call raises (container unchanged) where the claim says it proceeds.
-/
theorem C2_coercion_check_raises_despite_write_scaled :
    add_electrical_series demoRecordingHalfOffset { write_scaled := some true } none []
        1000000000 demoStateWithElectrode
      = .error (.coercionNotImplemented, demoStateWithElectrode, []) ∧
    unsigned_coercion_ok demoRecordingHalfOffset.gains demoRecordingHalfOffset.offsets
      = false := by
  have hc : unsigned_coercion_ok demoRecordingHalfOffset.gains demoRecordingHalfOffset.offsets
      = false := by
    simp only [demoRecordingHalfOffset, demoRecordingNoProps, demoRecording,
      unsigned_coercion_ok, List.zip, List.zipWith, List.all_cons, List.all_nil,
      Bool.and_true]
    norm_num
  refine ⟨?_, hc⟩
  exact add_electrical_series_coercion_raises _ _ _ _ _ _ rfl (by norm_num) rfl rfl rfl rfl
    rfl [0] rfl hc

/-! ## C3: the all-or-nothing duplicate-id guard of add_electrodes -/

/--
C3: whenever the container's Electrodes table already holds at least one of
the extractor's channel ids, `add_electrodes` emits the duplicate-id
diagnostic and returns with the container completely unchanged — rows,
columns and all other container state (lines 253-257, before any mutation).
-/
theorem C3_duplicate_ids_guard (rec : Recording) (metadata : Option Metadata)
    (excl : List String) (st : NwbState) (tbl : ETable) (i : Int)
    (htbl : st.electrodes = some tbl) (hmem : i ∈ rec.channel_ids) (hin : i ∈ tbl.ids) :
    add_electrodes rec metadata excl st = .ok (st, [Diag.electrodesExist]) := by
  have hdup : (match st.electrodes with
      | some t => !(rec.channel_ids.all (fun id => !(t.ids.contains id)))
      | none => false) = true := by
    rw [htbl]
    simp only [Bool.not_eq_true']
    rw [List.all_eq_false]
    refine ⟨i, hmem, ?_⟩
    simp [hin]
  simp only [add_electrodes, hdup, if_true]

/-- Witness for `C3_duplicate_ids_guard`: channel id 0 already present. -/
theorem C3_duplicate_ids_guard_witness :
    add_electrodes demoRecordingNoProps none [] demoStateWithElectrode
      = .ok (demoStateWithElectrode, [Diag.electrodesExist]) :=
  C3_duplicate_ids_guard demoRecordingNoProps none [] demoStateWithElectrode
    { ids := [0], cols := [] } 0 rfl (by decide) (by decide)

/-! ## C4: add_electrode_groups is an unimplemented stub -/

/--
C4: `add_electrode_groups`, as reached from `SI013NwbEphysWriter`, raises
`NotImplementedError` unconditionally (the class inherits the
`BaseNwbEphysWriter` stub), so it neither creates electrode groups nor
completes normally; consequently `add_electrodes` on a container without
electrode groups (lines 261-262) also raises.
-/
theorem C4_add_electrode_groups_raises :
    add_electrode_groups demoState = .error (.notImplementedError, demoState, []) ∧
    add_electrodes demoRecordingNoProps none [] demoStateNoGroups
      = .error (.notImplementedError, demoStateNoGroups, []) :=
  ⟨rfl, rfl⟩

/-! ## C5: the unknown-user-column ValueError is dead code -/

/-- Helper for C5: the user column-description loop can never raise — the
defaultdict access of line 358 inserts the name before the membership test of
line 359, so the loop always reaches the end of the metadata list. -/
theorem applyUserElectrodeMeta_no_valueError :
    ∀ (em : List (String × String)) (cols : List ElecColEntry),
      ∃ res, applyUserElectrodeMeta cols em = .ok res := by
  intro em
  induction em with
  | nil => exact fun cols => ⟨cols, rfl⟩
  | cons x rest ih =>
      intro cols
      obtain ⟨n, d⟩ := x
      have hany : ((if cols.any (·.name = n) then
          cols.map (fun c => if c.name = n then { c with description := d } else c)
        else cols ++ [{ name := n, description := d, data := none, index := none }]).any
          (·.name = n)) = true := by
        by_cases hc : (cols.any (·.name = n)) = true
        · rw [if_pos hc]
          obtain ⟨c, hcm, hcn⟩ := List.any_eq_true.1 hc
          refine List.any_eq_true.2 ⟨_, List.mem_map_of_mem _ hcm, ?_⟩
          simp only [decide_eq_true_eq] at hcn
          simp [hcn]
        · rw [if_neg hc]
          simp
      obtain ⟨res, hres⟩ := ih (if cols.any (·.name = n) then
          cols.map (fun c => if c.name = n then { c with description := d } else c)
        else cols ++ [{ name := n, description := d, data := none, index := none }])
      refine ⟨res, ?_⟩
      rw [applyUserElectrodeMeta]
      simp only [hany, Bool.not_true, Bool.false_eq_true, if_false]
      exact hres

/--
C5: user metadata naming a column `q` absent from the source does NOT raise
the `ValueError` of line 360 — the `defaultdict` access of line 358 inserts
the name before the membership test runs, so the check is dead code; the
operation instead continues with a phantom column and fails later with
`KeyError` (here `found_property_types["q"]` at line 383), after having
already created the electrodes table with the real column `p`.
-/
theorem C5_unknown_user_column_no_valueError :
    add_electrodes demoRecording (some demoMetadataQ) [] demoState
      = .error (.keyError "q", demoStatePhantomStop, []) ∧
    (∀ (em : List (String × String)) (cols : List ElecColEntry),
      ∃ res, applyUserElectrodeMeta cols em = .ok res) :=
  ⟨rfl, applyUserElectrodeMeta_no_valueError⟩

/-! ## C6: the populated-units guard of add_units -/

/--
C6 (amended): for a sorting with a known sampling frequency and a container
whose units table already exists (in particular, is populated),
`add_units` warns and leaves the container unchanged (lines 741, 859-860).
(The sampling-frequency precondition of lines 722-724 is checked first: a
sorting without one raises `ValueError` before the guard, see the
counterexample.)
-/
theorem C6_populated_units_guard (sorting : Sorting) (kw : UnitsKwargs) (st : NwbState)
    (t : UTable) (fs : Rat) (hfs : sorting.sampling_frequency = some fs)
    (hu : st.units = some t) (_hpop : t.ids ≠ []) :
    add_units sorting kw st = .ok (st, [Diag.unitsExist]) := by
  simp only [add_units, hfs, hu]

/-- Witness for `C6_populated_units_guard`. -/
theorem C6_populated_units_guard_witness :
    add_units demoSorting {} demoStateWithUnits
      = .ok (demoStateWithUnits, [Diag.unitsExist]) :=
  C6_populated_units_guard demoSorting {} demoStateWithUnits
    { ids := [1], spike_times := [[0]], cols := [] } 1000 rfl rfl (by decide)

/--
C6 counterexample: a sorting extractor with no known sampling frequency and a
container whose units table is populated — `add_units` raises `ValueError`
(no diagnostic is emitted, the call does not return normally), so the claim
as stated over every sorting extractor fails; the units table is still
unchanged.
-/
theorem C6_counterexample :
    add_units demoSortingNoFs {} demoStateWithUnits
      = .error (.valueErrorNoSamplingFrequency, demoStateWithUnits, []) ∧
    add_units demoSortingNoFs {} demoStateWithUnits
      ≠ .ok (demoStateWithUnits, [Diag.unitsExist]) := by
  constructor
  · rfl
  · intro h
    rw [show add_units demoSortingNoFs {} demoStateWithUnits
        = .error (.valueErrorNoSamplingFrequency, demoStateWithUnits, []) from rfl] at h
    exact Except.noConfusion h

/-! ## C9: compression-option boundary in add_electrical_series -/

/--
C9 (amended): with gzip compression, a supplied `compression_opts` outside
0-9 makes `add_electrical_series` raise a configuration error before the
series is constructed or placed — and, when the electrodes table was already
populated, before any container mutation; when the electrodes table was empty
the entry `add_electrodes` backfill (lines 525-526) has already run by the
time the error is raised (see the counterexample).  With lzf compression any
supplied `compression_opts` is dropped with a warning and the operation
proceeds (lines 534-543).
-/
theorem C9_compression_opts_amended (rec : Recording) (kw : ESKwargs)
    (metadata : Option Metadata) (excl : List String) (avail : Nat) (st : NwbState) (o : Int)
    (htr : electrodesTruthy st.electrodes = true)
    (hbuf : 10 < kw.buffer_mb.getD 500)
    (hcz : kw.compression.getD (some "gzip") = some "gzip")
    (ho : kw.compression_opts.getD none = some o)
    (hrange : o < 0 ∨ 9 < o)
    (hwa : kw.write_as.getD "raw" = "raw" ∨ kw.write_as.getD "raw" = "processed" ∨
      kw.write_as.getD "raw" = "lfp") :
    add_electrical_series rec kw metadata excl avail st
      = .error (.assertionError "compression_opts", st, []) ∧
    (∀ copts : Int, resolveCompression (some "lzf") (some copts)
      = .ok (none, [Diag.lzfOptsIgnored])) := by
  have hno : ¬ ((0 : Int) ≤ o ∧ o ≤ 9) := by omega
  constructor
  · have hrc : resolveCompression (some "gzip") (some o)
        = .error (.assertionError "compression_opts") := by
      rw [resolveCompression, if_pos rfl, if_neg hno]
    simp only [add_electrical_series, htr, hcz, ho]
    rw [if_neg (by omega)]
    rw [if_neg (by simp)]
    simp only [if_true]
    rw [if_neg (not_not_intro hwa)]
    rw [hrc]
  · intro copts
    rw [resolveCompression, if_neg (by simp), if_pos (by simp)]

/-- Witness for `C9_compression_opts_amended`: gzip with opts 15 on a
populated table raises with the container untouched; lzf with opts 3 warns
and drops the option. -/
theorem C9_compression_opts_amended_witness :
    add_electrical_series demoRecordingNoProps
        { compression := some (some "gzip"), compression_opts := some (some 15) } none [] 5
        demoStateWithElectrode
      = .error (.assertionError "compression_opts", demoStateWithElectrode, []) ∧
    (∀ copts : Int, resolveCompression (some "lzf") (some copts)
      = .ok (none, [Diag.lzfOptsIgnored])) :=
  C9_compression_opts_amended demoRecordingNoProps
    { compression := some (some "gzip"), compression_opts := some (some 15) } none [] 5
    demoStateWithElectrode 15 rfl (by norm_num) rfl rfl (Or.inr (by norm_num)) (Or.inl rfl)

/--
C9 counterexample: on a container with no electrodes table, gzip with opts 15
raises the configuration error only AFTER the entry `add_electrodes` call has
populated the electrodes table — the container is mutated before the error,
so the error is not raised "before any write" as claimed.
-/
theorem C9_counterexample :
    add_electrical_series demoRecordingNoProps
        { compression := some (some "gzip"), compression_opts := some (some 15) } none []
        1000000000 demoState
      = .error (.assertionError "compression_opts", demoStateAfterEntryAdd, []) ∧
    demoState.electrodes = none ∧ demoStateAfterEntryAdd.electrodes ≠ none := by
  refine ⟨rfl, rfl, by simp [demoStateAfterEntryAdd]⟩

/-! ## C10: `_idxs` features are silently excluded from the feature pass -/

/-- The pass state reached by a (possibly failing) feature-write
computation: a Python exception leaves the in-place mutations performed so
far. -/
def passState : Except (Err × FeatPassState) FeatPassState → FeatPassState
  | .ok s => s
  | .error e => e.2

theorem flagShortFeature_table (s : FeatPassState) (ft : String) (b : Bool) :
    (flagShortFeature s ft b).table = s.table := by
  unfold flagShortFeature
  split <;> rfl

theorem flagShortFeature_diags (s : FeatPassState) (ft : String) (b : Bool) :
    ∀ d ∈ (flagShortFeature s ft b).diags, d ∈ s.diags ∨ d = Diag.skipFeatureNotAllSpikes ft := by
  unfold flagShortFeature
  split
  · intro d hd
    rcases List.mem_append.1 hd with h | h
    · exact Or.inl h
    · simp at h
      exact Or.inr h
  · exact fun d hd => Or.inl hd

theorem set_dynamic_table_property_indexed_cols (t : UTable) (row_ids : List Int)
    (pn : String) (values : List PVal) (index : List Int) (t2 : UTable)
    (h : set_dynamic_table_property_indexed t row_ids pn values index = .ok t2) :
    ∃ c : UCol, t2.cols = t.cols ++ [c] ∧ c.name = pn := by
  unfold set_dynamic_table_property_indexed at h
  split at h
  · exact Except.noConfusion h
  · split at h
    · exact Except.noConfusion h
    · injection h with h2
      subst h2
      exact ⟨_, rfl, rfl⟩

/-- Helper for C10: one feature-write iteration either leaves the columns
unchanged or appends exactly one column named after its own feature, and any
diagnostic it emits is tagged with its own feature name. -/
theorem feature_write_step_shape (sorting : Sorting) (nspikes : List (Int × Int))
    (s : FeatPassState) (ft : String) :
    ((passState (feature_write_step sorting nspikes s ft)).table.cols = s.table.cols ∨
      ∃ c : UCol, (passState (feature_write_step sorting nspikes s ft)).table.cols
        = s.table.cols ++ [c] ∧ c.name = ft) ∧
    (∀ d ∈ (passState (feature_write_step sorting nspikes s ft)).diags,
      d ∈ s.diags ∨ d = Diag.skipFeatureNotAllSpikes ft ∨ d = Diag.featureAlreadyPresent ft) := by
  rw [feature_write_step]
  split
  · exact ⟨Or.inl rfl, fun d hd => Or.inl hd⟩
  · split
    · exact ⟨Or.inl rfl, fun d hd => Or.inl hd⟩
    · split
      · constructor
        · left
          simp [passState, flagShortFeature_table]
        · intro d hd
          simp only [passState] at hd
          rcases List.mem_append.1 hd with h | h
          · rcases flagShortFeature_diags s ft _ d h with h1 | h1
            · exact Or.inl h1
            · exact Or.inr (Or.inl h1)
          · simp at h
            exact Or.inr (Or.inr h)
      · split
        · constructor
          · left
            simp [passState, flagShortFeature_table]
          · intro d hd
            simp only [passState] at hd
            rcases flagShortFeature_diags s ft _ d hd with h1 | h1
            · exact Or.inl h1
            · exact Or.inr (Or.inl h1)
        · rename_i t2 heq
          constructor
          · obtain ⟨c, hc1, hc2⟩ :=
              set_dynamic_table_property_indexed_cols _ _ _ _ _ _ heq
            rw [flagShortFeature_table] at hc1
            exact Or.inr ⟨c, hc1, hc2⟩
          · intro d hd
            simp only [passState] at hd
            rcases flagShortFeature_diags s ft _ d hd with h1 | h1
            · exact Or.inl h1
            · exact Or.inr (Or.inl h1)

/--
C10: in the feature-writing pass of `add_units` (lines 828-858), every spike
feature whose name ends in `_idxs` is excluded up front by the
`if not ft.endswith("_idxs")` guard of line 830: the iteration for it is a
no-op (first conjunct), so across the whole pass no Units-table column with
such a name is ever created from the sorting extractor's features (second
conjunct), and no diagnostic about that feature is emitted by the pass
(third conjunct).
-/
theorem C10_idxs_features_excluded (sorting : Sorting) (nspikes : List (Int × Int))
    (fts : List String) (s : FeatPassState) (ft : String)
    (h : pyEndsWith ft "_idxs" = true) :
    feature_write_step sorting nspikes s ft = .ok s ∧
    ((passState (feature_write_pass sorting nspikes s fts)).table.cols.any
        (fun c => c.name = ft)
      = s.table.cols.any (fun c => c.name = ft)) ∧
    (∀ d ∈ (passState (feature_write_pass sorting nspikes s fts)).diags,
      d ∈ s.diags ∨ (d ≠ Diag.skipFeatureNotAllSpikes ft ∧
        d ≠ Diag.featureAlreadyPresent ft)) := by
  have hstep0 : feature_write_step sorting nspikes s ft = .ok s := by
    rw [feature_write_step, if_pos h]
  refine ⟨hstep0, ?_⟩
  clear hstep0
  induction fts generalizing s with
  | nil => exact ⟨rfl, fun d hd => Or.inl hd⟩
  | cons ft2 rest ih =>
      by_cases he : ft2 = ft
      · subst he
        rw [feature_write_pass]
        rw [show feature_write_step sorting nspikes s ft2 = .ok s from by
          rw [feature_write_step, if_pos h]]
        exact ih s
      · have hshape := feature_write_step_shape sorting nspikes s ft2
        rw [feature_write_pass]
        cases hstep : feature_write_step sorting nspikes s ft2 with
        | error e =>
            rw [hstep] at hshape
            constructor
            · rcases hshape.1 with h1 | ⟨c, h1, h2⟩
              · simp only [passState] at h1 ⊢
                rw [h1]
              · simp only [passState] at h1 ⊢
                rw [h1]
                have hcft : (c.name = ft) = False := by
                  simp [h2, he]
                simp [List.any_append, hcft]
            · intro d hd
              simp only [passState] at hd
              rcases hshape.2 d hd with h1 | h1 | h1
              · exact Or.inl h1
              · refine Or.inr ⟨?_, ?_⟩
                · simp [h1, he]
                · simp [h1]
              · refine Or.inr ⟨?_, ?_⟩
                · simp [h1]
                · simp [h1, he]
        | ok s1 =>
            rw [hstep] at hshape
            obtain ⟨hA, hB⟩ := ih s1
            constructor
            · rw [hA]
              rcases hshape.1 with h1 | ⟨c, h1, h2⟩
              · simp only [passState] at h1
                rw [h1]
              · simp only [passState] at h1
                rw [h1]
                have hcft : (c.name = ft) = False := by
                  simp [h2, he]
                simp [List.any_append, hcft]
            · intro d hd
              rcases hB d hd with h1 | h1
              · simp only [passState] at hshape
                rcases hshape.2 d h1 with h2 | h2 | h2
                · exact Or.inl h2
                · refine Or.inr ⟨?_, ?_⟩
                  · simp [h2, he]
                  · simp [h2]
                · refine Or.inr ⟨?_, ?_⟩
                  · simp [h2]
                  · simp [h2, he]
              · exact Or.inr h1

/-- The feature-pass state used by the C10 witness. -/
def demoFeatState : FeatPassState :=
  { table := { ids := [1], spike_times := [[0]], cols := [] },
    skip_features := [], diags := [] }

/-- Witness for `C10_idxs_features_excluded` at the concrete feature name
`amp_idxs`. -/
theorem C10_idxs_features_excluded_witness :
    feature_write_step demoSorting [(1, 1)] demoFeatState "amp_idxs" = .ok demoFeatState ∧
    ((passState (feature_write_pass demoSorting [(1, 1)] demoFeatState
        ["amp_idxs"])).table.cols.any (fun c => c.name = "amp_idxs")
      = demoFeatState.table.cols.any (fun c => c.name = "amp_idxs")) ∧
    (∀ d ∈ (passState (feature_write_pass demoSorting [(1, 1)] demoFeatState
        ["amp_idxs"])).diags,
      d ∈ demoFeatState.diags ∨ (d ≠ Diag.skipFeatureNotAllSpikes "amp_idxs" ∧
        d ≠ Diag.featureAlreadyPresent "amp_idxs")) :=
  C10_idxs_features_excluded demoSorting [(1, 1)] ["amp_idxs"] demoFeatState "amp_idxs" rfl

end NwbConv
